import Mathlib

/-!
Verification of the identifier-validation core of `indian_id_validator`
(`src/main.py`): type detection, Verhoeff (Aadhaar), Luhn mod-10
(IMEI/Card) and GSTIN checksums, fraud-flag heuristics, and the batch
pipeline.

Strings are modelled as `List Char`; Python's `str.upper`, `str.isdigit`
and the regex character classes `\d`, `[A-Z]` are modelled over ASCII.
Python expressions that can raise (`int(ch)` on a non-digit,
`charset.index` on a foreign character, `num[0]` on an empty string) are
modelled with `Option`: `none` is a raised exception.
-/

/-- Verhoeff multiplication table `d` (src/main.py, `verhoeff_d`). -/
def verhoeff_d : List (List Nat) := [
  [0,1,2,3,4,5,6,7,8,9],
  [1,2,3,4,0,6,7,8,9,5],
  [2,3,4,0,1,7,8,9,5,6],
  [3,4,0,1,2,8,9,5,6,7],
  [4,0,1,2,3,9,5,6,7,8],
  [5,9,8,7,6,0,4,3,2,1],
  [6,5,9,8,7,1,0,4,3,2],
  [7,6,5,9,8,2,1,0,4,3],
  [8,7,6,5,9,3,2,1,0,4],
  [9,8,7,6,5,4,3,2,1,0]]

/-- Verhoeff permutation table `p` (src/main.py, `verhoeff_p`). -/
def verhoeff_p : List (List Nat) := [
  [0,1,2,3,4,5,6,7,8,9],
  [1,5,7,6,2,8,3,0,9,4],
  [5,8,0,3,7,9,6,1,4,2],
  [8,9,1,6,0,4,3,5,2,7],
  [9,4,5,3,1,2,6,8,7,0],
  [4,2,8,6,5,7,3,9,0,1],
  [2,7,9,3,8,0,6,4,1,5],
  [7,0,4,6,9,1,3,2,5,8]]

/-- Table lookup `verhoeff_d[c][x]`. -/
def dTab (c x : Nat) : Nat := (verhoeff_d.getD c []).getD x 0

/-- Table lookup `verhoeff_p[i][x]`. -/
def pTab (i x : Nat) : Nat := (verhoeff_p.getD i []).getD x 0

/-- The GSTIN alphabet `CODE_POINTS` / `charset` (src/main.py line 36/61). -/
def CODE_POINTS : List Char := "0123456789ABCDEFGHIJKLMNOPQRSTUVWXYZ".toList

/-- Numeric value of an ASCII digit character, Python's `int(ch)`. -/
def dv (c : Char) : Nat := c.toNat - 48

/-- Python `str.upper` on an ASCII string. -/
def upper (s : List Char) : List Char := s.map Char.toUpper

/-- The regex `^[2-9]\d{11}$` used by `validate_aadhaar` and `detect_type`. -/
def aadhaarShape (s : List Char) : Bool :=
  match s with
  | [] => false
  | c :: rest => ('2' ≤ c && c ≤ '9') && rest.length == 11 && rest.all Char.isDigit

/-- The Verhoeff loop of `validate_aadhaar`: `i` the running index
(0 at the rightmost digit), `c` the running checksum;
`c = verhoeff_d[c][verhoeff_p[i % 8][digit]]` at each step. -/
def verhoeffStep (i c : Nat) : List Nat → Nat
  | [] => c
  | d :: ds => verhoeffStep (i + 1) (dTab c (pTab (i % 8) d)) ds

/-- `validate_aadhaar` (src/main.py lines 38-44): shape check, then the
Verhoeff fold over the digits right to left, valid iff the final
checksum is 0. -/
def validate_aadhaar (s : List Char) : Bool :=
  if aadhaarShape s then verhoeffStep 0 0 (s.reverse.map dv) == 0 else false

/-- The Luhn loop of `luhn_mod10` over the reversed string: doubles at odd
indices, subtracts 9 above 9; `none` models `int(d)` raising on a
non-digit character. -/
def luhnLoop (i total : Nat) : List Char → Option Nat
  | [] => some total
  | c :: cs =>
    if c.isDigit then
      let n := dv c
      let n := if i % 2 == 1 then (if n * 2 > 9 then n * 2 - 9 else n * 2) else n
      luhnLoop (i + 1) (total + n) cs
    else none

/-- `luhn_mod10` (src/main.py lines 46-56). -/
def luhn_mod10 (s : List Char) : Option Bool :=
  (luhnLoop 0 0 s.reverse).map (fun total => total % 10 == 0)

/-- Python `charset.index(ch)` on the 36-character alphabet; `none` models
the `ValueError` on a character outside the alphabet. -/
def charIndex (c : Char) : Option Nat := CODE_POINTS.indexOf? c

/-- The loop of `gstin_checksum`: right-to-left fold with the alternating
factor 2,1,2,1,... and base-36 addend folding. -/
def gstinLoop : List Char → Nat → Nat → Option Nat
  | [], _, total => some total
  | c :: cs, factor, total =>
    match charIndex c with
    | none => none
    | some cp =>
      let addend := factor * cp
      gstinLoop cs (if factor == 2 then 1 else 2) (total + (addend / 36 + addend % 36))

/-- `gstin_checksum` (src/main.py lines 58-72): returns
`charset[(36 - total % 36) % 36]`. -/
def gstin_checksum (body : List Char) : Option Char :=
  (gstinLoop body.reverse 2 0).map (fun total => CODE_POINTS.getD ((36 - total % 36) % 36) '0')

/-- The 15-character GSTIN regex shape
`^\d{2}[A-Z]{5}\d{4}[A-Z][1-9A-Z]Z[0-9A-Z]$`. -/
def gstinShape (s : List Char) : Bool :=
  match s with
  | [d1, d2, l1, l2, l3, l4, l5, d3, d4, d5, d6, l6, e1, z1, e2] =>
    d1.isDigit && d2.isDigit &&
    l1.isUpper && l2.isUpper && l3.isUpper && l4.isUpper && l5.isUpper &&
    d3.isDigit && d4.isDigit && d5.isDigit && d6.isDigit &&
    l6.isUpper && (('1' ≤ e1 && e1 ≤ '9') || e1.isUpper) &&
    z1 == 'Z' && (e2.isDigit || e2.isUpper)
  | _ => false

/-- Python `re.match` with the anchored GSTIN pattern: `$` also matches
just before a newline at the very end of the string, so a match succeeds
on the exact shape or on the shape followed by a single trailing
newline. -/
def gstinMatch (s : List Char) : Bool :=
  gstinShape s || (s.getLast? == some '\n' && gstinShape s.dropLast)

/-- `validate_gstin` (src/main.py lines 74-80): upper-case, `re.match`
against the shape, then compare the last character with
`gstin_checksum` of all but the last character. -/
def validate_gstin (s : List Char) : Option Bool :=
  let g := upper s
  if gstinMatch g then
    (gstin_checksum g.dropLast).map (fun ch => g.getLast? == some ch)
  else some false

/-- The regex `^\d{15}$` (IMEI rule of `detect_type`). -/
def digits15 (s : List Char) : Bool := s.length == 15 && s.all Char.isDigit

/-- The regex `^\d{13,19}$` (Card rule of `detect_type`). -/
def cardShape (s : List Char) : Bool :=
  decide (13 ≤ s.length) && decide (s.length ≤ 19) && s.all Char.isDigit

/-- `detect_type` (src/main.py lines 82-93): upper-case, then the ordered
rules Aadhaar, GSTIN, IMEI, Card; `none` is Python's `None`
(Unrecognized). -/
def detect_type (s : List Char) : Option String :=
  let n := upper s
  if aadhaarShape n then some "Aadhaar"
  else if gstinShape n && n.length == 15 then some "GSTIN"
  else if digits15 n then some "IMEI"
  else if cardShape n then some "Card"
  else none

/-- `validate_id` (src/main.py lines 95-102): dispatch on the type. -/
def validate_id (s : List Char) (idType : String) : Option Bool :=
  if idType == "Aadhaar" then some (validate_aadhaar s)
  else if idType == "GSTIN" then validate_gstin s
  else if idType == "IMEI" || idType == "Card" then luhn_mod10 s
  else some false

/-- Python `str.isdigit`: nonempty and all characters digits. -/
def isdigitStr (l : List Char) : Bool := !l.isEmpty && l.all Char.isDigit

/-- `fraud_flags` (src/main.py lines 104-112). `none` models the
`IndexError` of `num[0]` when the type is Aadhaar and the string is
empty (the `and` short-circuits otherwise). -/
def fraud_flags (s : List Char) (idType : String) : Option (List String) :=
  let f1 : List String := if s.dedup.length ≤ 2 then ["Repeated digits"] else []
  let step2 : Option (List String) :=
    if idType == "Aadhaar" then
      match s.head? with
      | none => none
      | some c =>
        some (if c == '0' || c == '1' then f1 ++ ["Invalid Aadhaar start digit"] else f1)
    else some f1
  step2.map (fun f2 =>
    if idType == "GSTIN" && !isdigitStr (s.take 2) then
      f2 ++ ["Invalid GSTIN state code"]
    else f2)

/-- One row of the batch loop's `results` list (src/main.py lines 180-185,
with `valid` and `flags` kept structured rather than rendered). -/
structure ValidationResult where
  idNum : List Char
  idType : String
  valid : Bool
  flags : List String
deriving DecidableEq

/-- The body of the `Validate All` loop for one token (src/main.py lines
162-169 and 180-185): detect, then either synthesize the Unrecognized
row or dispatch the checksum and heuristics; `none` models an
exception. -/
def processToken (s : List Char) : Option ValidationResult :=
  match detect_type s with
  | none => some ⟨s, "Unknown", false, ["Unrecognized or invalid format"]⟩
  | some t =>
    match validate_id s t, fraud_flags s t with
    | some v, some fl => some ⟨s, t, v, fl⟩
    | _, _ => none

/-- The `Validate All` batch loop (src/main.py lines 158-185):
`results.append(...)` once per token, in order. -/
def process_batch (tokens : List (List Char)) : List (Option ValidationResult) :=
  tokens.foldl (fun acc t => acc ++ [processToken t]) []

/-! ## Character arithmetic glue -/

/-- Character order is code-point order. -/
lemma char_le_iff (a b : Char) : a ≤ b ↔ a.toNat ≤ b.toNat := by
  rw [Char.le_def, UInt32.le_def, BitVec.le_def]
  exact Iff.rfl

/-- `Char.ofNat` of a valid code point has that code point. -/
lemma toNat_charOfNat {n : Nat} (h : n.isValidChar) : (Char.ofNat n).toNat = n := by
  rw [Char.ofNat, dif_pos h]
  rfl

/-- `Char.isDigit` in terms of code points. -/
lemma isDigit_iff_toNat (c : Char) : c.isDigit = true ↔ 48 ≤ c.toNat ∧ c.toNat ≤ 57 := by
  simp only [Char.isDigit, Bool.and_eq_true, decide_eq_true_eq, ge_iff_le,
    UInt32.le_def, BitVec.le_def]
  exact Iff.rfl

/-- `Char.isUpper` in terms of code points. -/
lemma isUpper_iff_toNat (c : Char) : c.isUpper = true ↔ 65 ≤ c.toNat ∧ c.toNat ≤ 90 := by
  simp only [Char.isUpper, Bool.and_eq_true, decide_eq_true_eq, ge_iff_le,
    UInt32.le_def, BitVec.le_def]
  exact Iff.rfl

/-- Characters with equal code points are equal. -/
lemma char_toNat_inj {a b : Char} (h : a.toNat = b.toNat) : a = b := by
  have ha := Char.ofNat_toNat a
  rw [h, Char.ofNat_toNat] at ha
  exact ha.symm

/-- Upper-casing a digit leaves it unchanged. -/
lemma toUpper_digit {c : Char} (h : c.isDigit = true) : c.toUpper = c := by
  rw [isDigit_iff_toNat] at h
  rw [Char.toUpper, if_neg]
  omega

/-- A character whose upper-case is a digit is that digit already. -/
lemma isDigit_of_toUpper_isDigit {c : Char} (h : c.toUpper.isDigit = true) :
    c.isDigit = true := by
  rw [Char.toUpper] at h
  by_cases hc : 97 ≤ c.toNat ∧ c.toNat ≤ 122
  · rw [if_pos hc] at h
    rw [isDigit_iff_toNat] at h
    have hv : (Char.ofNat (c.toNat - 32)).toNat = c.toNat - 32 := by
      apply toNat_charOfNat
      left
      omega
    omega
  · rwa [if_neg hc] at h

/-- No character is both a digit and an upper-case letter. -/
lemma not_isDigit_and_isUpper (c : Char) (h : c.isDigit = true) (h2 : c.isUpper = true) :
    False := by
  rw [isDigit_iff_toNat] at h
  rw [isUpper_iff_toNat] at h2
  omega

/-! ## Spec-side definitions (transcribed from the specification's wording,
for the refinement claims) -/

/-- Spec wording of the Aadhaar shape: exactly 12 digits with leading
digit 2-9. -/
def aadhaarShapeSpec (s : List Char) : Bool :=
  s.length == 12 && s.all Char.isDigit &&
  (match s.head? with
   | some c => '2' ≤ c && c ≤ '9'
   | none => false)

/-- Spec wording of the Verhoeff fold: `c` starts at 0 and is updated to
`d[c][p[i mod 8][digit]]`, `i` being 0 at the rightmost digit. -/
def verhoeffFoldSpec (l : List Nat) : Nat :=
  l.enum.foldl (fun c q => dTab c (pTab (q.1 % 8) q.2)) 0

/-- Spec wording of `validate_aadhaar`: false off-shape, else the fold of
the digits from rightmost to leftmost must end at 0. -/
def validate_aadhaar_spec (s : List Char) : Bool :=
  if aadhaarShapeSpec s then verhoeffFoldSpec (s.reverse.map dv) == 0 else false

/-- Spec wording of the Luhn digit transform: double, subtract 9 when the
doubled value exceeds 9. -/
def luhnDouble (n : Nat) : Nat := if n * 2 > 9 then n * 2 - 9 else n * 2

/-- Spec wording of the Luhn sum: digits from last to first, doubling at
odd 0-indexed positions from the right. -/
def luhnSum (s : List Char) : Nat :=
  ((s.reverse.map dv).enum.map (fun q => if q.1 % 2 = 1 then luhnDouble q.2 else q.2)).sum

/-- Spec wording of Luhn validity: the sum is divisible by 10. -/
def luhn_valid_spec (s : List Char) : Bool := luhnSum s % 10 == 0

/-- Spec wording of a character's GSTIN code point: its index in the
36-character alphabet. -/
def codePoint (c : Char) : Nat := (charIndex c).getD 0

/-- Spec wording of the GSTIN running total: right to left with the
factor alternating 2,1,2,1,..., each addend folded through base 36. -/
def gstinTotalSpec : List Char → Nat → Nat
  | [], _ => 0
  | c :: cs, factor =>
    (factor * codePoint c / 36 + factor * codePoint c % 36) +
      gstinTotalSpec cs (if factor = 2 then 1 else 2)

/-- Spec wording of the expected GSTIN check character:
`alphabet[(36 - (total mod 36)) mod 36]`. -/
def gstin_checksum_spec (body : List Char) : Char :=
  CODE_POINTS.getD ((36 - gstinTotalSpec body.reverse 2 % 36) % 36) '0'

/-- Test an optional character against a predicate; false when absent. -/
def optCheck (o : Option Char) (p : Char → Bool) : Bool :=
  match o with
  | some c => p c
  | none => false

/-- Spec wording of the 15-character GSTIN shape: 2 digits, 5 letters,
4 digits, 1 letter, 1 character in [1-9A-Z], literal Z, 1 character in
[0-9A-Z]. -/
def gstinShapeSpec (s : List Char) : Bool :=
  s.length == 15 &&
  (s.take 2).all Char.isDigit &&
  ((s.drop 2).take 5).all Char.isUpper &&
  ((s.drop 7).take 4).all Char.isDigit &&
  optCheck s[11]? Char.isUpper &&
  optCheck s[12]? (fun c => ('1' ≤ c && c ≤ '9') || c.isUpper) &&
  (s[13]? == some 'Z') &&
  optCheck s[14]? (fun c => c.isDigit || c.isUpper)

/-- Spec wording of `validate_gstin`: after upper-casing, the 15-character
shape must hold and the 15th character must equal the checksum of the
first 14. -/
def validate_gstin_spec (s : List Char) : Bool :=
  let g := upper s
  gstinShapeSpec g && (g.getLast? == some (gstin_checksum_spec (g.take 14)))

/-- Spec wording of `detect_type`: the five ordered rules, first match
winning. -/
def detect_type_spec (s : List Char) : Option String :=
  let n := upper s
  if aadhaarShapeSpec n then some "Aadhaar"
  else if gstinShapeSpec n then some "GSTIN"
  else if n.length == 15 && n.all Char.isDigit then some "IMEI"
  else if decide (13 ≤ n.length) && decide (n.length ≤ 19) && n.all Char.isDigit then some "Card"
  else none

/-! ## Shape and fold equivalences -/

/-- The Aadhaar regex equals the spec's wording of the shape. -/
lemma aadhaarShape_eq_spec (s : List Char) : aadhaarShape s = aadhaarShapeSpec s := by
  cases s with
  | nil => rfl
  | cons c rest =>
    rw [Bool.eq_iff_iff]
    simp only [aadhaarShape, aadhaarShapeSpec, List.length_cons, List.all_cons,
      List.head?_cons, Bool.and_eq_true, beq_iff_eq, decide_eq_true_eq]
    have e2 : ('2' : Char).toNat = 50 := rfl
    have e9 : ('9' : Char).toNat = 57 := rfl
    constructor
    · rintro ⟨⟨⟨ha, hb⟩, hlen⟩, hall⟩
      rw [char_le_iff, e2] at ha
      rw [char_le_iff, e9] at hb
      refine ⟨⟨by omega, ?_, hall⟩, ?_, ?_⟩
      · rw [isDigit_iff_toNat]; omega
      · rw [char_le_iff, e2]; omega
      · rw [char_le_iff, e9]; omega
    · rintro ⟨⟨hlen, _, hall⟩, ha, hb⟩
      exact ⟨⟨⟨ha, hb⟩, by omega⟩, hall⟩

/-- The Verhoeff loop with index state equals the spec's indexed fold. -/
lemma verhoeffStep_eq_foldl (l : List Nat) : ∀ i c,
    verhoeffStep i c l = (l.enumFrom i).foldl (fun c q => dTab c (pTab (q.1 % 8) q.2)) c := by
  induction l with
  | nil => intro i c; rfl
  | cons d ds ih =>
    intro i c
    rw [verhoeffStep, List.enumFrom_cons, List.foldl_cons]
    exact ih (i + 1) _

/-- C1: `validate_aadhaar` returns false off the Aadhaar shape (12 digits,
leading digit 2-9) and otherwise folds the digits right to left through
`c = d[c][p[i mod 8][digit]]` starting from `c = 0`, accepting iff the
final `c` is 0 — i.e. it coincides with the spec's description. -/
theorem validate_aadhaar_refines_spec (s : List Char) :
    validate_aadhaar s = validate_aadhaar_spec s := by
  rw [validate_aadhaar, validate_aadhaar_spec, aadhaarShape_eq_spec]
  cases h : aadhaarShapeSpec s with
  | false => rfl
  | true =>
    rw [if_pos rfl, if_pos rfl, verhoeffStep_eq_foldl, verhoeffFoldSpec]
    rfl

/-- The Luhn loop with index state equals the spec's indexed sum. -/
lemma luhnLoop_eq (cs : List Char) : ∀ i t, cs.all Char.isDigit = true →
    luhnLoop i t cs =
      some (t + (((cs.map dv).enumFrom i).map
        (fun q => if q.1 % 2 = 1 then luhnDouble q.2 else q.2)).sum) := by
  induction cs with
  | nil => intro i t _; simp [luhnLoop]
  | cons c cs ih =>
    intro i t h
    rw [List.all_cons, Bool.and_eq_true] at h
    rw [luhnLoop, if_pos h.1, ih (i + 1) _ h.2]
    rw [List.map_cons, List.enumFrom_cons, List.map_cons, List.sum_cons]
    congr 1
    rw [← Nat.add_assoc]
    congr 2
    by_cases hp : i % 2 = 1
    · rw [if_pos hp, if_pos (by simpa using hp), luhnDouble]
    · rw [if_neg hp, if_neg (by simpa using hp)]

/-- C4: `luhn_mod10` on a digit string computes the spec's Luhn sum
(digits right to left, doubling at odd positions from the right,
subtracting 9 above 9) and accepts iff the sum is divisible by 10; on
the two spec examples it returns true resp. false. -/
theorem luhn_mod10_refines_spec :
    (∀ s : List Char, s.all Char.isDigit = true →
      luhn_mod10 s = some (luhn_valid_spec s)) ∧
    luhn_mod10 ("4539148803436467".toList) = some true ∧
    luhn_mod10 ("4539148803436468".toList) = some false := by
  refine ⟨?_, by decide, by decide⟩
  intro s h
  rw [luhn_mod10, luhnLoop_eq _ 0 0 (by simpa using h)]
  rw [luhn_valid_spec, luhnSum]
  simp [List.enum]

/-- C4 witness: the general part of `luhn_mod10_refines_spec` applied to
the known-valid example card number. -/
theorem luhn_mod10_refines_spec_witness :
    ("4539148803436467".toList.all Char.isDigit = true) ∧
    luhn_mod10 ("4539148803436467".toList) =
      some (luhn_valid_spec ("4539148803436467".toList)) :=
  ⟨by decide, luhn_mod10_refines_spec.1 _ (by decide)⟩

/-- C10: `luhn_mod10` of the empty string is true (the sum is 0), and the
empty string is unreachable through dispatch: `detect_type` classifies
it as neither IMEI nor Card but as Unrecognized. -/
theorem luhn_mod10_nil_true_but_undetected :
    luhn_mod10 ([] : List Char) = some true ∧
    detect_type ([] : List Char) = none := by
  exact ⟨rfl, rfl⟩

/-- C6: a token the detector does not recognize produces the synthesized
result: valid is false and the flag list is exactly the single
Unrecognized flag (the checksum and heuristic code paths are not taken
in this branch of the loop). -/
theorem unrecognized_token_result (s : List Char) (h : detect_type s = none) :
    processToken s =
      some ⟨s, "Unknown", false, ["Unrecognized or invalid format"]⟩ := by
  rw [processToken, h]

/-- C6 witness: the Unrecognized path on the spec's example token. -/
theorem unrecognized_token_result_witness :
    detect_type ("abc".toList) = none ∧
    processToken ("abc".toList) =
      some ⟨"abc".toList, "Unknown", false, ["Unrecognized or invalid format"]⟩ :=
  ⟨by decide, unrecognized_token_result _ (by decide)⟩

/-- The GSTIN regex equals the spec's wording of the shape. -/
lemma gstinShape_eq_spec (s : List Char) : gstinShape s = gstinShapeSpec s := by
  rcases s with _ | ⟨c1, s⟩
  · rfl
  rcases s with _ | ⟨c2, s⟩
  · rfl
  rcases s with _ | ⟨c3, s⟩
  · rfl
  rcases s with _ | ⟨c4, s⟩
  · rfl
  rcases s with _ | ⟨c5, s⟩
  · rfl
  rcases s with _ | ⟨c6, s⟩
  · rfl
  rcases s with _ | ⟨c7, s⟩
  · rfl
  rcases s with _ | ⟨c8, s⟩
  · rfl
  rcases s with _ | ⟨c9, s⟩
  · rfl
  rcases s with _ | ⟨c10, s⟩
  · rfl
  rcases s with _ | ⟨c11, s⟩
  · rfl
  rcases s with _ | ⟨c12, s⟩
  · rfl
  rcases s with _ | ⟨c13, s⟩
  · rfl
  rcases s with _ | ⟨c14, s⟩
  · rfl
  rcases s with _ | ⟨c15, s⟩
  · rfl
  rcases s with _ | ⟨c16, s⟩
  · rw [Bool.eq_iff_iff]
    simp only [gstinShape, gstinShapeSpec, optCheck, List.length_cons, List.take,
      List.drop, List.all_cons, List.all_nil, List.getElem?_cons_succ,
      List.getElem?_cons_zero, Bool.and_eq_true, Bool.or_eq_true, beq_iff_eq,
      decide_eq_true_eq, Option.some.injEq]
    tauto
  · rfl

/-- A list passing the spec GSTIN shape has length 15. -/
lemma gstinShapeSpec_length {s : List Char} (h : gstinShapeSpec s = true) :
    s.length = 15 := by
  rw [gstinShapeSpec] at h
  simp only [Bool.and_eq_true, beq_iff_eq] at h
  exact h.1.1.1.1.1.1.1

/-- The redundant length check of `detect_type`'s GSTIN rule is absorbed
by the shape. -/
lemma gstinShapeSpec_and_length (s : List Char) :
    (gstinShapeSpec s && s.length == 15) = gstinShapeSpec s := by
  cases h : gstinShapeSpec s
  · rfl
  · simp [gstinShapeSpec_length h]

/-- Upper-casing a string of digits leaves it unchanged. -/
lemma upper_of_digits {s : List Char} (h : ∀ c ∈ s, c.isDigit = true) :
    upper s = s := by
  induction s with
  | nil => rfl
  | cons c cs ih =>
    rw [upper, List.map_cons]
    rw [toUpper_digit (h c (List.mem_cons_self c cs))]
    rw [upper] at ih
    rw [ih (fun x hx => h x (List.mem_cons_of_mem _ hx))]

/-- A string of 15 digits fails the spec GSTIN shape. -/
lemma gstinShapeSpec_false_of_digits {s : List Char} (hlen : s.length = 15)
    (h : ∀ c ∈ s, c.isDigit = true) : gstinShapeSpec s = false := by
  cases hg : gstinShapeSpec s
  · rfl
  · exfalso
    rw [gstinShapeSpec] at hg
    simp only [Bool.and_eq_true, beq_iff_eq] at hg
    have h11 : 11 < s.length := by omega
    have hu := hg.1.1.1.2
    rw [List.getElem?_eq_getElem h11, optCheck] at hu
    exact not_isDigit_and_isUpper _ (h _ (List.getElem_mem h11)) hu

/-- C3: `detect_type` upper-cases its input and applies the five ordered
rules with first match winning (it coincides with the spec's rule
cascade); consequently a string of exactly 15 digits is always
classified IMEI and never Card. -/
theorem detect_type_refines_spec :
    (∀ s : List Char, detect_type s = detect_type_spec s) ∧
    (∀ s : List Char, s.length = 15 → (∀ c ∈ s, c.isDigit = true) →
      detect_type s = some "IMEI" ∧ detect_type s ≠ some "Card") := by
  constructor
  · intro s
    simp only [detect_type, detect_type_spec, digits15, cardShape]
    rw [aadhaarShape_eq_spec, gstinShape_eq_spec, gstinShapeSpec_and_length]
  · intro s hlen hdig
    have hu : upper s = s := upper_of_digits hdig
    have h12 : aadhaarShapeSpec s = false := by
      simp [aadhaarShapeSpec, hlen]
    have h15 : digits15 s = true := by
      simp only [digits15, hlen, List.all_eq_true, beq_self_eq_true, Bool.true_and]
      exact hdig
    have : detect_type s = some "IMEI" := by
      simp only [detect_type, hu]
      rw [aadhaarShape_eq_spec, gstinShape_eq_spec, gstinShapeSpec_and_length,
        h12, gstinShapeSpec_false_of_digits hlen hdig, h15]
      rfl
    exact ⟨this, by rw [this]; simp⟩

/-- C3 witness: the spec's order-precedence example, 15 digits must be
IMEI and not Card. -/
theorem detect_type_refines_spec_witness :
    ("123456789012345".toList.length = 15) ∧
    detect_type ("123456789012345".toList) = some "IMEI" ∧
    detect_type ("123456789012345".toList) ≠ some "Card" :=
  ⟨by decide,
   (detect_type_refines_spec.2 _ (by decide) (by decide)).1,
   (detect_type_refines_spec.2 _ (by decide) (by decide)).2⟩

/-! ## GSTIN alphabet facts -/

/-- Every ASCII digit or upper-case letter occurs in the 36-character
alphabet. -/
lemma mem_CODE_POINTS {c : Char} (h : (c.isDigit || c.isUpper) = true) :
    c ∈ CODE_POINTS := by
  rw [Bool.or_eq_true] at h
  have hn : (48 ≤ c.toNat ∧ c.toNat ≤ 57) ∨ (65 ≤ c.toNat ∧ c.toNat ≤ 90) := by
    cases h with
    | inl h => exact Or.inl ((isDigit_iff_toNat c).mp h)
    | inr h => exact Or.inr ((isUpper_iff_toNat c).mp h)
  have hv : c = Char.ofNat c.toNat := (Char.ofNat_toNat c).symm
  rw [hv]
  generalize hgen : c.toNat = n at hn
  rcases hn with ⟨h1, h2⟩ | ⟨h1, h2⟩
  · interval_cases n <;> decide
  · interval_cases n <;> decide

/-- On an alphabet character, `charset.index` returns its code point. -/
lemma charIndex_eq_codePoint {c : Char} (h : c ∈ CODE_POINTS) :
    charIndex c = some (codePoint c) := by
  cases hi : charIndex c with
  | none =>
    exfalso
    rw [charIndex, List.indexOf?_eq_none_iff] at hi
    have := hi c h
    simp at this
  | some k =>
    rw [codePoint, hi]
    rfl

/-- Elimination form of the GSTIN regex: the string is exactly 15
characters with the per-position character classes. -/
lemma gstinShape_elim {s : List Char} (h : gstinShape s = true) :
    ∃ d1 d2 l1 l2 l3 l4 l5 d3 d4 d5 d6 l6 e1 z1 e2,
      s = [d1, d2, l1, l2, l3, l4, l5, d3, d4, d5, d6, l6, e1, z1, e2] ∧
      d1.isDigit = true ∧ d2.isDigit = true ∧ l1.isUpper = true ∧
      l2.isUpper = true ∧ l3.isUpper = true ∧ l4.isUpper = true ∧
      l5.isUpper = true ∧ d3.isDigit = true ∧ d4.isDigit = true ∧
      d5.isDigit = true ∧ d6.isDigit = true ∧ l6.isUpper = true ∧
      (('1' ≤ e1 ∧ e1 ≤ '9') ∨ e1.isUpper = true) ∧ z1 = 'Z' ∧
      (e2.isDigit = true ∨ e2.isUpper = true) := by
  rcases s with _ | ⟨c1, s⟩
  · exact (Bool.false_ne_true h).elim
  rcases s with _ | ⟨c2, s⟩
  · exact (Bool.false_ne_true h).elim
  rcases s with _ | ⟨c3, s⟩
  · exact (Bool.false_ne_true h).elim
  rcases s with _ | ⟨c4, s⟩
  · exact (Bool.false_ne_true h).elim
  rcases s with _ | ⟨c5, s⟩
  · exact (Bool.false_ne_true h).elim
  rcases s with _ | ⟨c6, s⟩
  · exact (Bool.false_ne_true h).elim
  rcases s with _ | ⟨c7, s⟩
  · exact (Bool.false_ne_true h).elim
  rcases s with _ | ⟨c8, s⟩
  · exact (Bool.false_ne_true h).elim
  rcases s with _ | ⟨c9, s⟩
  · exact (Bool.false_ne_true h).elim
  rcases s with _ | ⟨c10, s⟩
  · exact (Bool.false_ne_true h).elim
  rcases s with _ | ⟨c11, s⟩
  · exact (Bool.false_ne_true h).elim
  rcases s with _ | ⟨c12, s⟩
  · exact (Bool.false_ne_true h).elim
  rcases s with _ | ⟨c13, s⟩
  · exact (Bool.false_ne_true h).elim
  rcases s with _ | ⟨c14, s⟩
  · exact (Bool.false_ne_true h).elim
  rcases s with _ | ⟨c15, s⟩
  · exact (Bool.false_ne_true h).elim
  rcases s with _ | ⟨c16, s⟩
  · simp only [gstinShape, Bool.and_eq_true, Bool.or_eq_true, beq_iff_eq,
      decide_eq_true_eq] at h
    refine ⟨c1, c2, c3, c4, c5, c6, c7, c8, c9, c10, c11, c12, c13, c14, c15, rfl,
      ?_, ?_, ?_, ?_, ?_, ?_, ?_, ?_, ?_, ?_, ?_, ?_, ?_, ?_, ?_⟩ <;> tauto
  · exact (Bool.false_ne_true h).elim

/-- Every character of a string passing the GSTIN regex is in the
alphabet. -/
lemma gstinShape_alphabet {s : List Char} (h : gstinShape s = true) :
    ∀ c ∈ s, (c.isDigit || c.isUpper) = true := by
  obtain ⟨d1, d2, l1, l2, l3, l4, l5, d3, d4, d5, d6, l6, e1, z1, e2, rfl,
    h1, h2, h3, h4, h5, h6, h7, h8, h9, h10, h11, h12, h13, h14, h15⟩ :=
    gstinShape_elim h
  have he1 : (e1.isDigit || e1.isUpper) = true := by
    rcases h13 with ⟨ha, hb⟩ | hu
    · rw [char_le_iff] at ha hb
      have ea : ('1' : Char).toNat = 49 := rfl
      have eb : ('9' : Char).toNat = 57 := rfl
      rw [ea] at ha
      rw [eb] at hb
      have : e1.isDigit = true := by
        rw [isDigit_iff_toNat]
        omega
      simp [this]
    · simp [hu]
  have hz : (z1.isDigit || z1.isUpper) = true := by
    subst h14
    decide
  have he2 : (e2.isDigit || e2.isUpper) = true := by
    rcases h15 with hd | hu
    · simp [hd]
    · simp [hu]
  intro c hc
  simp only [List.mem_cons, List.not_mem_nil, or_false] at hc
  rcases hc with rfl | rfl | rfl | rfl | rfl | rfl | rfl | rfl | rfl | rfl | rfl |
    rfl | rfl | rfl | rfl <;> simp_all

/-- On alphabet characters the checksum loop never raises and computes
the spec's alternating-factor total. -/
lemma gstinLoop_eq_spec (cs : List Char) : ∀ f t,
    (∀ c ∈ cs, (c.isDigit || c.isUpper) = true) →
    gstinLoop cs f t = some (t + gstinTotalSpec cs f) := by
  induction cs with
  | nil => intro f t _; simp [gstinLoop, gstinTotalSpec]
  | cons c cs ih =>
    intro f t h
    have hc : charIndex c = some (codePoint c) :=
      charIndex_eq_codePoint (mem_CODE_POINTS (h c (List.mem_cons_self c cs)))
    rw [gstinLoop, hc]
    show gstinLoop cs (if (f == 2) = true then 1 else 2)
        (t + (f * codePoint c / 36 + f * codePoint c % 36)) =
      some (t + gstinTotalSpec (c :: cs) f)
    rw [ih _ _ (fun x hx => h x (List.mem_cons_of_mem _ hx))]
    rw [gstinTotalSpec]
    have hfac : (if (f == 2) = true then 1 else 2) = (if f = 2 then 1 else 2) := by
      by_cases hf : f = 2
      · rw [if_pos hf, if_pos (by simpa using hf)]
      · rw [if_neg hf, if_neg (by simpa using hf)]
    rw [hfac, Nat.add_assoc]

/-- The checksum of an all-alphabet body never raises, and equals the
spec's check character. -/
lemma gstin_checksum_eq_spec {body : List Char}
    (h : ∀ c ∈ body, (c.isDigit || c.isUpper) = true) :
    gstin_checksum body = some (gstin_checksum_spec body) := by
  rw [gstin_checksum, gstinLoop_eq_spec _ 2 0 (fun c hc => h c (List.mem_reverse.mp hc))]
  simp [gstin_checksum_spec]

/-- The expected check character is an alphabet character. -/
lemma gstin_checksum_spec_mem (body : List Char) :
    gstin_checksum_spec body ∈ CODE_POINTS := by
  rw [gstin_checksum_spec]
  have hlt : (36 - gstinTotalSpec body.reverse 2 % 36) % 36 < 36 := by omega
  have h36 : CODE_POINTS.length = 36 := rfl
  rw [List.getD_eq_getElem _ _ (by omega)]
  exact List.getElem_mem _

/-- `validate_gstin` never raises and agrees with the spec-side
formulation pointwise. -/
lemma validate_gstin_eq_specval (s : List Char) :
    validate_gstin s = some (validate_gstin_spec s) := by
  simp only [validate_gstin, validate_gstin_spec]
  by_cases hm : gstinMatch (upper s) = true
  · rw [if_pos hm]
    rw [gstinMatch, Bool.or_eq_true] at hm
    rcases hm with hsh | hnl
    · have hspec : gstinShapeSpec (upper s) = true := by
        rw [← gstinShape_eq_spec]
        exact hsh
      have hlen : (upper s).length = 15 := gstinShapeSpec_length hspec
      have hbody : ∀ c ∈ (upper s).dropLast, (c.isDigit || c.isUpper) = true :=
        fun c hc => gstinShape_alphabet hsh c (List.dropLast_subset _ hc)
      rw [gstin_checksum_eq_spec hbody, Option.map_some']
      have htake : (upper s).dropLast = (upper s).take 14 := by
        rw [List.dropLast_eq_take, hlen]
      rw [htake, hspec, Bool.true_and]
    · rw [Bool.and_eq_true] at hnl
      obtain ⟨hlastb, hsh'⟩ := hnl
      have hlast : (upper s).getLast? = some '\n' := by
        simpa using hlastb
      have hbody : ∀ c ∈ (upper s).dropLast, (c.isDigit || c.isUpper) = true :=
        gstinShape_alphabet hsh'
      rw [gstin_checksum_eq_spec hbody, Option.map_some']
      have hchmem := gstin_checksum_spec_mem ((upper s).dropLast)
      have hne : '\n' ≠ gstin_checksum_spec ((upper s).dropLast) := by
        intro he
        rw [← he] at hchmem
        exact absurd hchmem (by decide)
      have hnonnil : upper s ≠ [] := by
        intro h0
        rw [h0] at hlast
        exact Option.noConfusion hlast
      have hlen15 : (upper s).dropLast.length = 15 := by
        rw [gstinShape_eq_spec] at hsh'
        exact gstinShapeSpec_length hsh'
      have hlen16 : (upper s).length = 16 := by
        rw [List.length_dropLast] at hlen15
        have := List.length_pos.mpr hnonnil
        omega
      have hspecf : gstinShapeSpec (upper s) = false := by
        simp [gstinShapeSpec, hlen16]
      rw [hlast, hspecf, Bool.false_and]
      simp [hne]
  · rw [if_neg hm]
    have hshf : gstinShapeSpec (upper s) = false := by
      cases hq : gstinShape (upper s) with
      | false =>
        rw [← gstinShape_eq_spec]
        exact hq
      | true =>
        exfalso
        apply hm
        rw [gstinMatch, hq, Bool.true_or]
    rw [hshf, Bool.false_and]

/-- C2: `validate_gstin` upper-cases its input and accepts exactly when
the 15-character GSTIN shape holds and the 15th character equals the
checksum of the first 14, computed right to left with the factor
alternating 2,1,2,1,..., base-36 folding of each addend, and check
character `alphabet[(36 - (total mod 36)) mod 36]` — i.e. it coincides
with the spec's description (and never raises). -/
theorem validate_gstin_refines_spec (s : List Char) :
    validate_gstin s = some (validate_gstin_spec s) :=
  validate_gstin_eq_specval s

/-- A GSTIN detection implies the GSTIN regex on the upper-cased input. -/
lemma detect_type_eq_gstin {s : List Char} (h : detect_type s = some "GSTIN") :
    gstinShape (upper s) = true := by
  simp only [detect_type] at h
  split_ifs at h with h1 h2 h3 h4 <;>
    first
      | (rw [Bool.and_eq_true] at h2; exact h2.1)
      | exact absurd h (by decide)

/-- An Aadhaar detection implies the Aadhaar regex on the upper-cased
input. -/
lemma detect_type_eq_aadhaar {s : List Char} (h : detect_type s = some "Aadhaar") :
    aadhaarShape (upper s) = true := by
  simp only [detect_type] at h
  split_ifs at h with h1 h2 h3 h4 <;>
    first
      | exact h1
      | exact absurd h (by decide)

/-- `fraud_flags` on a GSTIN whose first two characters are digits:
only the repeated-digits heuristic can fire. -/
lemma fraud_flags_gstin_of_digits {s : List Char} (h : isdigitStr (s.take 2) = true) :
    fraud_flags s "GSTIN" =
      some (if s.dedup.length ≤ 2 then ["Repeated digits"] else []) := by
  simp only [fraud_flags]
  rw [if_neg (show ¬((("GSTIN" : String) == "Aadhaar") = true) by decide)]
  rw [Option.map_some', h]
  rw [if_neg (by decide)]

/-- `fraud_flags` on an Aadhaar not starting with 0 or 1: only the
repeated-digits heuristic can fire. -/
lemma fraud_flags_aadhaar_of_start {a : Char} {t : List Char} (h0 : a ≠ '0')
    (h1 : a ≠ '1') :
    fraud_flags (a :: t) "Aadhaar" =
      some (if (a :: t).dedup.length ≤ 2 then ["Repeated digits"] else []) := by
  simp only [fraud_flags]
  rw [if_pos (show ((("Aadhaar" : String) == "Aadhaar") = true) by decide)]
  simp only [List.head?_cons]
  rw [if_neg (by simp [h0, h1])]
  rw [Option.map_some']
  have hb : (("Aadhaar" : String) == "GSTIN") = false := by decide
  rw [hb, Bool.false_and]
  rw [if_neg Bool.false_ne_true]

/-- C7: under the dispatch order, the state-code and Aadhaar-start fraud
flags can never fire: a GSTIN-detected value already has two leading
digits and an Aadhaar-detected value already starts with 2-9, so the
corresponding branches of `fraud_flags` are unreachable. -/
theorem fraud_flag_branches_unreachable (s : List Char) :
    (detect_type s = some "GSTIN" →
      ∀ fl, fraud_flags s "GSTIN" = some fl → "Invalid GSTIN state code" ∉ fl) ∧
    (detect_type s = some "Aadhaar" →
      ∀ fl, fraud_flags s "Aadhaar" = some fl → "Invalid Aadhaar start digit" ∉ fl) := by
  constructor
  · intro h fl hfl
    have hsh := detect_type_eq_gstin h
    obtain ⟨d1, d2, l1, l2, l3, l4, l5, d3, d4, d5, d6, l6, e1, z1, e2, heq,
      hd1, hd2, _⟩ := gstinShape_elim hsh
    rcases s with _ | ⟨a, s'⟩
    · rw [upper] at heq
      exact absurd heq (by simp)
    rcases s' with _ | ⟨b, s''⟩
    · rw [upper] at heq
      simp at heq
    rw [upper, List.map_cons, List.map_cons] at heq
    injection heq with e1' heq'
    injection heq' with e2' _
    have hda : a.isDigit = true := isDigit_of_toUpper_isDigit (by rw [e1']; exact hd1)
    have hdb : b.isDigit = true := isDigit_of_toUpper_isDigit (by rw [e2']; exact hd2)
    have hdig : isdigitStr ((a :: b :: s'').take 2) = true := by
      simp [isdigitStr, List.take, hda, hdb]
    rw [fraud_flags_gstin_of_digits hdig] at hfl
    injection hfl with hfl'
    rw [← hfl']
    by_cases hd : (a :: b :: s'').dedup.length ≤ 2
    · rw [if_pos hd]
      decide
    · rw [if_neg hd]
      decide
  · intro h fl hfl
    have hsh := detect_type_eq_aadhaar h
    rcases s with _ | ⟨a, s'⟩
    · exact absurd hsh (by decide)
    rw [upper, List.map_cons] at hsh
    simp only [aadhaarShape, Bool.and_eq_true, decide_eq_true_eq] at hsh
    obtain ⟨⟨⟨h2a, h9a⟩, _⟩, _⟩ := hsh
    have hua : a.toUpper.isDigit = true := by
      rw [isDigit_iff_toNat]
      rw [char_le_iff] at h2a h9a
      have e2 : ('2' : Char).toNat = 50 := rfl
      have e9 : ('9' : Char).toNat = 57 := rfl
      rw [e2] at h2a
      rw [e9] at h9a
      omega
    have hdaa : a.isDigit = true := isDigit_of_toUpper_isDigit hua
    have haeq : a.toUpper = a := toUpper_digit hdaa
    rw [haeq] at h2a
    have h2n : ('2' : Char).toNat ≤ a.toNat := (char_le_iff _ _).mp h2a
    have h0 : a ≠ '0' := by
      intro he
      rw [he] at h2n
      exact absurd h2n (by decide)
    have h1 : a ≠ '1' := by
      intro he
      rw [he] at h2n
      exact absurd h2n (by decide)
    rw [fraud_flags_aadhaar_of_start h0 h1] at hfl
    injection hfl with hfl'
    rw [← hfl']
    by_cases hd : (a :: s').dedup.length ≤ 2
    · rw [if_pos hd]
      decide
    · rw [if_neg hd]
      decide

/-- C7 witness: the unreachable branches, checked on a detected GSTIN and
a detected Aadhaar. -/
theorem fraud_flag_branches_unreachable_witness :
    "Invalid GSTIN state code" ∉ ([] : List String) ∧
    "Invalid Aadhaar start digit" ∉ ([] : List String) :=
  ⟨(fraud_flag_branches_unreachable ("27AAPFU0939F1ZV".toList)).1 (by decide) []
     (by decide),
   (fraud_flag_branches_unreachable ("234567890124".toList)).2 (by decide) []
     (by decide)⟩

/-! ## Dispatch totality and the batch pipeline -/

/-- Case analysis of a successful detection. -/
lemma detect_type_some_cases {s : List Char} {t : String}
    (h : detect_type s = some t) :
    (t = "Aadhaar" ∧ aadhaarShape (upper s) = true) ∨
    (t = "GSTIN" ∧ gstinShape (upper s) = true) ∨
    (t = "IMEI" ∧ digits15 (upper s) = true) ∨
    (t = "Card" ∧ cardShape (upper s) = true) := by
  simp only [detect_type] at h
  split_ifs at h with h1 h2 h3 h4
  · injection h with h'
    exact Or.inl ⟨h'.symm, h1⟩
  · injection h with h'
    rw [Bool.and_eq_true] at h2
    exact Or.inr (Or.inl ⟨h'.symm, h2.1⟩)
  · injection h with h'
    exact Or.inr (Or.inr (Or.inl ⟨h'.symm, h3⟩))
  · injection h with h'
    exact Or.inr (Or.inr (Or.inr ⟨h'.symm, h4⟩))

/-- A string whose upper-casing is all digits is all digits. -/
lemma all_digits_of_upper {s : List Char} (h : (upper s).all Char.isDigit = true) :
    s.all Char.isDigit = true := by
  rw [List.all_eq_true] at h ⊢
  intro c hc
  exact isDigit_of_toUpper_isDigit (h _ (List.mem_map_of_mem Char.toUpper hc))

/-- The Luhn loop never raises on an all-digit string. -/
lemma luhn_mod10_isSome {s : List Char} (h : s.all Char.isDigit = true) :
    ∃ b, luhn_mod10 s = some b := by
  rw [luhn_mod10, luhnLoop_eq _ 0 0 (by simpa using h)]
  exact ⟨_, rfl⟩

/-- The heuristics raise only for an empty Aadhaar-typed value. -/
lemma fraud_flags_isSome {s : List Char} {t : String} (h : t = "Aadhaar" → s ≠ []) :
    ∃ fl, fraud_flags s t = some fl := by
  simp only [fraud_flags]
  by_cases ht : (t == "Aadhaar") = true
  · rw [if_pos ht]
    rcases s with _ | ⟨a, s'⟩
    · exact absurd rfl (h (by simpa using ht))
    · rw [List.head?_cons]
      exact ⟨_, Option.map_some' _ _⟩
  · rw [if_neg ht]
    exact ⟨_, Option.map_some' _ _⟩

/-- On a detection-passing value, neither the dispatched checksum nor the
heuristics raise. -/
lemma validate_id_fraud_total {s : List Char} {t : String}
    (h : detect_type s = some t) :
    (∃ v, validate_id s t = some v) ∧ (∃ fl, fraud_flags s t = some fl) := by
  rcases detect_type_some_cases h with ⟨rfl, hsh⟩ | ⟨rfl, hsh⟩ | ⟨rfl, hsh⟩ | ⟨rfl, hsh⟩
  · refine ⟨⟨_, by rw [validate_id, if_pos (by decide)]⟩, fraud_flags_isSome ?_⟩
    intro _ hnil
    rw [hnil] at hsh
    exact absurd hsh (by decide)
  · refine ⟨⟨validate_gstin_spec s, ?_⟩, fraud_flags_isSome ?_⟩
    · rw [validate_id, if_neg (by decide), if_pos (by decide)]
      exact validate_gstin_eq_specval s
    · intro heq
      exact absurd heq (by decide)
  · have hd : s.all Char.isDigit = true := by
      rw [digits15, Bool.and_eq_true] at hsh
      exact all_digits_of_upper hsh.2
    obtain ⟨b, hb⟩ := luhn_mod10_isSome hd
    refine ⟨⟨b, ?_⟩, fraud_flags_isSome ?_⟩
    · rw [validate_id, if_neg (by decide), if_neg (by decide), if_pos (by decide)]
      exact hb
    · intro heq
      exact absurd heq (by decide)
  · have hd : s.all Char.isDigit = true := by
      rw [cardShape, Bool.and_eq_true, Bool.and_eq_true] at hsh
      exact all_digits_of_upper hsh.2
    obtain ⟨b, hb⟩ := luhn_mod10_isSome hd
    refine ⟨⟨b, ?_⟩, fraud_flags_isSome ?_⟩
    · rw [validate_id, if_neg (by decide), if_neg (by decide), if_pos (by decide)]
      exact hb
    · intro heq
      exact absurd heq (by decide)

/-- C8: on a recognized token the pipeline's `valid` field is exactly the
checksum dispatch's result, and the flag list is exactly the heuristics'
result — the flags never alter validity in either direction. -/
theorem result_valid_eq_validate_id (s : List Char) (t : String)
    (h : detect_type s = some t) :
    ∃ v fl, validate_id s t = some v ∧ fraud_flags s t = some fl ∧
      processToken s = some ⟨s, t, v, fl⟩ := by
  obtain ⟨⟨v, hv⟩, ⟨fl, hfl⟩⟩ := validate_id_fraud_total h
  refine ⟨v, fl, hv, hfl, ?_⟩
  have hm : processToken s = match validate_id s t, fraud_flags s t with
      | some v, some fl => some ⟨s, t, v, fl⟩
      | _, _ => none := by
    rw [processToken, h]
  rw [hm, hv, hfl]

/-- C8 witness: the pipeline on a detected Aadhaar. -/
theorem result_valid_eq_validate_id_witness :
    ∃ v fl, validate_id ("234567890124".toList) "Aadhaar" = some v ∧
      fraud_flags ("234567890124".toList) "Aadhaar" = some fl ∧
      processToken ("234567890124".toList) =
        some ⟨"234567890124".toList, "Aadhaar", v, fl⟩ :=
  result_valid_eq_validate_id _ _ (by decide)

/-- The pipeline never raises on any token. -/
lemma processToken_isSome (s : List Char) : ∃ r, processToken s = some r := by
  cases hd : detect_type s with
  | none => exact ⟨_, by rw [processToken, hd]⟩
  | some t =>
    obtain ⟨⟨v, hv⟩, ⟨fl, hfl⟩⟩ := validate_id_fraud_total hd
    have hm : processToken s = match validate_id s t, fraud_flags s t with
        | some v, some fl => some ⟨s, t, v, fl⟩
        | _, _ => none := by
      rw [processToken, hd]
    exact ⟨_, by rw [hm, hv, hfl]⟩

/-- The appending fold of the batch loop is a map. -/
lemma foldl_append_eq_map {α β : Type} (f : α → β) (l : List α) : ∀ acc : List β,
    l.foldl (fun a t => a ++ [f t]) acc = acc ++ l.map f := by
  induction l with
  | nil => intro acc; simp
  | cons x xs ih =>
    intro acc
    rw [List.foldl_cons, ih, List.map_cons]
    simp

/-- C9: the batch loop emits exactly one result per token, in input
order: it is the elementwise image of the token list, index for index,
and every emitted entry is an actual result (no token raises). -/
theorem process_batch_one_result_per_token (tokens : List (List Char)) :
    process_batch tokens = tokens.map processToken ∧
    (process_batch tokens).length = tokens.length ∧
    (∀ i : Nat, (process_batch tokens)[i]? = (tokens[i]?).map processToken) ∧
    (∀ r ∈ process_batch tokens, ∃ v, r = some v) := by
  have hb : process_batch tokens = tokens.map processToken := by
    rw [process_batch, foldl_append_eq_map]
    simp
  refine ⟨hb, ?_, ?_, ?_⟩
  · rw [hb, List.length_map]
  · intro i
    rw [hb, List.getElem?_map]
  · intro r hr
    rw [hb] at hr
    obtain ⟨t, _, rfl⟩ := List.mem_map.mp hr
    exact processToken_isSome t

/-- C9 witness: the order-preservation example of the spec. -/
theorem process_batch_one_result_per_token_witness :
    ∃ v, processToken ("X".toList) = some v :=
  (process_batch_one_result_per_token
      ["X".toList, "Y".toList, "Z".toList]).2.2.2
    (processToken ("X".toList)) (by decide)

/-! ## Verhoeff single-substitution detection -/

/-- The table `d` maps two checksum digits to a digit. -/
lemma dTab_lt {c x : Nat} (hc : c < 10) (hx : x < 10) : dTab c x < 10 := by
  have H : ∀ a b : Fin 10, dTab a.val b.val < 10 := by decide
  exact H ⟨c, hc⟩ ⟨x, hx⟩

/-- Each row of the table `d` is injective (it is a group's Cayley
table). -/
lemma dTab_row_inj {c x y : Nat} (hc : c < 10) (hx : x < 10) (hy : y < 10)
    (h : dTab c x = dTab c y) : x = y := by
  have H : ∀ a b e : Fin 10, dTab a.val b.val = dTab a.val e.val → b = e := by decide
  have := H ⟨c, hc⟩ ⟨x, hx⟩ ⟨y, hy⟩ h
  simpa using congrArg Fin.val this

/-- Each column of the table `d` is injective. -/
lemma dTab_col_inj {c c' x : Nat} (hc : c < 10) (hc' : c' < 10) (hx : x < 10)
    (h : dTab c x = dTab c' x) : c = c' := by
  have H : ∀ a b e : Fin 10, dTab a.val e.val = dTab b.val e.val → a = b := by decide
  have := H ⟨c, hc⟩ ⟨c', hc'⟩ ⟨x, hx⟩ h
  simpa using congrArg Fin.val this

/-- The table `p` maps a digit to a digit. -/
lemma pTab_lt {i x : Nat} (hi : i < 8) (hx : x < 10) : pTab i x < 10 := by
  have H : ∀ a : Fin 8, ∀ b : Fin 10, pTab a.val b.val < 10 := by decide
  exact H ⟨i, hi⟩ ⟨x, hx⟩

/-- Each row of the table `p` is a permutation of the digits, hence
injective. -/
lemma pTab_inj {i x y : Nat} (hi : i < 8) (hx : x < 10) (hy : y < 10)
    (h : pTab i x = pTab i y) : x = y := by
  have H : ∀ a : Fin 8, ∀ b e : Fin 10, pTab a.val b.val = pTab a.val e.val → b = e := by
    decide
  have := H ⟨i, hi⟩ ⟨x, hx⟩ ⟨y, hy⟩ h
  simpa using congrArg Fin.val this

/-- The Verhoeff loop splits over list concatenation, with the index
advanced by the length of the first part. -/
lemma verhoeffStep_append (l1 l2 : List Nat) : ∀ i c,
    verhoeffStep i c (l1 ++ l2) =
      verhoeffStep (i + l1.length) (verhoeffStep i c l1) l2 := by
  induction l1 with
  | nil =>
    intro i c
    rw [List.nil_append, List.length_nil, Nat.add_zero, verhoeffStep]
  | cons d ds ih =>
    intro i c
    rw [List.cons_append, verhoeffStep, verhoeffStep, ih, List.length_cons]
    congr 1
    omega

/-- The running checksum stays a digit over a digit list. -/
lemma verhoeffStep_lt (l : List Nat) : ∀ i c, c < 10 → (∀ d ∈ l, d < 10) →
    verhoeffStep i c l < 10 := by
  induction l with
  | nil =>
    intro i c hc _
    exact hc
  | cons d ds ih =>
    intro i c hc hall
    rw [verhoeffStep]
    refine ih _ _ ?_ (fun e he => hall e (List.mem_cons_of_mem _ he))
    exact dTab_lt hc (pTab_lt (Nat.mod_lt _ (by omega))
      (hall d (List.mem_cons_self d ds)))

/-- Distinct running checksums stay distinct through the loop: every
step's update is injective in the checksum argument. -/
lemma verhoeffStep_state_inj (l : List Nat) : ∀ i c c', c < 10 → c' < 10 →
    c ≠ c' → (∀ d ∈ l, d < 10) →
    verhoeffStep i c l ≠ verhoeffStep i c' l := by
  induction l with
  | nil =>
    intro i c c' _ _ hne _
    exact hne
  | cons d ds ih =>
    intro i c c' hc hc' hne hall
    rw [verhoeffStep, verhoeffStep]
    have hd : d < 10 := hall d (List.mem_cons_self d ds)
    have hp : pTab (i % 8) d < 10 := pTab_lt (Nat.mod_lt _ (by omega)) hd
    refine ih _ _ _ (dTab_lt hc hp) (dTab_lt hc' hp) ?_
      (fun e he => hall e (List.mem_cons_of_mem _ he))
    intro heq
    exact hne (dTab_col_inj hc hc' hp heq)

/-- Substituting a different digit at one position always changes the
final Verhoeff checksum. -/
lemma verhoeffStep_substitution (A B : List Nat) (x y : Nat) (i c : Nat)
    (hc : c < 10) (hA : ∀ d ∈ A, d < 10) (hx : x < 10) (hy : y < 10)
    (hB : ∀ d ∈ B, d < 10) (hxy : x ≠ y) :
    verhoeffStep i c (A ++ x :: B) ≠ verhoeffStep i c (A ++ y :: B) := by
  rw [verhoeffStep_append, verhoeffStep_append]
  set c1 := verhoeffStep i c A with hc1
  have hc1lt : c1 < 10 := verhoeffStep_lt A i c hc hA
  rw [verhoeffStep, verhoeffStep]
  set j := (i + A.length) % 8 with hj
  have hjlt : j < 8 := Nat.mod_lt _ (by omega)
  have hpx : pTab j x < 10 := pTab_lt hjlt hx
  refine verhoeffStep_state_inj B _ _ _ (dTab_lt hc1lt hpx)
    (dTab_lt hc1lt (pTab_lt hjlt hy)) ?_ hB
  intro heq
  exact hxy (pTab_inj hjlt hx hy (dTab_row_inj hc1lt hpx (pTab_lt hjlt hy) heq))

/-- A digit character's value is a digit. -/
lemma dv_lt {c : Char} (h : c.isDigit = true) : dv c < 10 := by
  rw [isDigit_iff_toNat] at h
  rw [dv]
  omega

/-- On digit characters, the value map is injective. -/
lemma dv_inj {c c' : Char} (h : c.isDigit = true) (h' : c'.isDigit = true)
    (hne : c ≠ c') : dv c ≠ dv c' := by
  rw [isDigit_iff_toNat] at h h'
  intro he
  rw [dv, dv] at he
  exact hne (char_toNat_inj (by omega))

/-- Every character of an Aadhaar-shaped string is a digit. -/
lemma aadhaarShape_digits {s : List Char} (h : aadhaarShape s = true) :
    ∀ c ∈ s, c.isDigit = true := by
  rw [aadhaarShape_eq_spec, aadhaarShapeSpec] at h
  simp only [Bool.and_eq_true] at h
  rw [← List.all_eq_true]
  exact h.1.2

/-- C5: substituting any single digit of a checksum-valid Aadhaar number
by a different digit is always detected: `validate_aadhaar` returns
false on the modified string. -/
theorem validate_aadhaar_detects_substitution (s : List Char)
    (h : validate_aadhaar s = true) (k : Nat) (hk : k < s.length) (x : Char)
    (hx : x.isDigit = true) (hne : x ≠ s.get ⟨k, hk⟩) :
    validate_aadhaar (s.set k x) = false := by
  have hsh : aadhaarShape s = true := by
    by_contra hq
    rw [validate_aadhaar, if_neg hq] at h
    exact Bool.false_ne_true h
  have hchk : verhoeffStep 0 0 (s.reverse.map dv) = 0 := by
    rw [validate_aadhaar, if_pos hsh] at h
    simpa using h
  have hdig : ∀ c ∈ s, c.isDigit = true := aadhaarShape_digits hsh
  by_cases hsh' : aadhaarShape (s.set k x) = true
  case neg =>
    rw [validate_aadhaar, if_neg hsh']
  case pos =>
    rw [validate_aadhaar, if_pos hsh']
    set g := s.get ⟨k, hk⟩ with hgdef
    have hgd : g.isDigit = true := hdig g (by rw [hgdef]; exact List.get_mem s k hk)
    have hdecomp : s = s.take k ++ g :: s.drop (k + 1) := by
      conv_lhs => rw [← List.take_append_drop k s]
      congr 1
      rw [List.drop_eq_getElem_cons hk, hgdef]
      rfl
    have hset : s.set k x = s.take k ++ x :: s.drop (k + 1) :=
      List.set_eq_take_cons_drop x hk
    have hmapA : ∀ d ∈ (s.drop (k + 1)).reverse.map dv, d < 10 := by
      intro d hd
      obtain ⟨c, hc, rfl⟩ := List.mem_map.mp hd
      exact dv_lt (hdig c (List.drop_subset _ _ (List.mem_reverse.mp hc)))
    have hmapB : ∀ d ∈ (s.take k).reverse.map dv, d < 10 := by
      intro d hd
      obtain ⟨c, hc, rfl⟩ := List.mem_map.mp hd
      exact dv_lt (hdig c (List.take_subset _ _ (List.mem_reverse.mp hc)))
    have hrev : s.reverse.map dv =
        ((s.drop (k + 1)).reverse.map dv) ++ dv g :: ((s.take k).reverse.map dv) := by
      conv_lhs => rw [hdecomp]
      rw [List.reverse_append, List.reverse_cons, List.append_assoc,
        List.singleton_append, List.map_append, List.map_cons]
    have hrev' : (s.set k x).reverse.map dv =
        ((s.drop (k + 1)).reverse.map dv) ++ dv x :: ((s.take k).reverse.map dv) := by
      rw [hset, List.reverse_append, List.reverse_cons, List.append_assoc,
        List.singleton_append, List.map_append, List.map_cons]
    suffices hne0 : verhoeffStep 0 0 ((s.set k x).reverse.map dv) ≠ 0 by
      simpa using hne0
    intro h0
    apply verhoeffStep_substitution ((s.drop (k + 1)).reverse.map dv)
      ((s.take k).reverse.map dv) (dv x) (dv g) 0 0 (by omega) hmapA (dv_lt hx)
      (dv_lt hgd) hmapB (dv_inj hx hgd hne)
    rw [← hrev', ← hrev, h0, hchk]

/-- C5 witness: the valid Aadhaar number 234567890124 is rejected after
one digit is replaced. -/
theorem validate_aadhaar_detects_substitution_witness :
    validate_aadhaar ("234567890124".toList) = true ∧
    validate_aadhaar (("234567890124".toList).set 5 '0') = false :=
  ⟨by decide,
   validate_aadhaar_detects_substitution _ (by decide) 5 (by decide) '0'
     (by decide) (by decide)⟩
